import Mathlib

/-!
Shallow embedding of the basequery-go extension-manager server core
(server.go) and the mutable-table example extension.  Go maps are
modelled as functions into Option, Go panics as the error side of
Except, and the (item, action)-labelled prometheus instruments as
function-valued counters and gauges.  Durations observed by the
histogram timer are real time and are not modelled; only the state
that the other instruments carry is.
-/

namespace Osquery

/-- A row or request mapping: string keys to string values. -/
abbrev RowMap := List (String × String)

/-- ExtensionPluginRequest: an opaque string-to-string mapping. -/
abbrev Req := List (String × String)

/-- Reading request[k] in Go returns the zero value "" when k is absent. -/
def reqGet (r : Req) (k : String) : String :=
  match r.find? (fun kv => kv.1 == k) with
  | some kv => kv.2
  | none => ""

/-- osquery.ExtensionStatus: Code (int32, modelled as Int) and Message. -/
structure ExtensionStatus where
  code : Int
  message : String
deriving Repr, DecidableEq

/-- osquery.ExtensionResponse: a Status and a list of result rows. -/
structure ExtensionResponse where
  status : ExtensionStatus
  response : List RowMap
deriving Repr, DecidableEq

/-- The Plugin interface of server.go.  Name, RegistryName, Routes and
Ping are data; Call is a function of the request.  Shutdown is
effect-only and carries no data, so it is not a field. -/
structure Plugin where
  name : String
  registryName : String
  routes : List RowMap
  ping : ExtensionStatus
  call : Req → ExtensionResponse

/-- validRegistryNames from server.go: the fixed set of allowable
RegistryName values. -/
def validRegistryNames (s : String) : Bool :=
  s == "table" || s == "logger" || s == "config" || s == "distributed"

/-- The two-level registry map[string]map[string]Plugin.  A Go map is a
partial function; absent outer key is none. -/
abbrev RegistryMap := String → Option (String → Option Plugin)

/-- The registry built by NewExtensionManagerServer: every valid
category mapped to an empty inner map, nothing else present. -/
def initRegistry : RegistryMap :=
  fun c => if validRegistryNames c then some (fun _ => none) else none

/-- One registry store s.registry[p.RegistryName()][p.Name()] = p.
Reading an absent inner map in Go yields the nil map, whose reads give
the zero value; RegisterPlugin only stores under valid categories,
which the constructor initialised, so the getD default is never the
map written to. -/
def insertPlugin (reg : RegistryMap) (p : Plugin) : RegistryMap :=
  fun c =>
    if c = p.registryName then
      some (fun n =>
        if n = p.name then some p
        else ((reg p.registryName).getD (fun _ => none)) n)
    else reg c

/-- RegisterPlugin of server.go over one variadic call: walk the
argument list, panicking (the error side, carrying the registry state
at the moment of the panic and the panic message) at the first plugin
whose RegistryName is invalid, otherwise inserting each plugin in
order. -/
def RegisterPlugin (reg : RegistryMap) : List Plugin → Except (RegistryMap × String) RegistryMap
  | [] => .ok reg
  | p :: ps =>
    if validRegistryNames p.registryName then
      RegisterPlugin (insertPlugin reg p) ps
    else
      .error (reg, "invalid registry name: " ++ p.registryName)

/-- The two-stage registry lookup performed by Call during dispatch:
outer map by category, then inner map by item. -/
def Lookup (reg : RegistryMap) (cat item : String) : Option Plugin :=
  match reg cat with
  | none => none
  | some subreg => subreg item

/-- The most recently registered plugin in ps under (c, n), if any:
later entries overwrite earlier ones. -/
def lastRegistered (ps : List Plugin) (c n : String) : Option Plugin :=
  ps.foldl (fun acc p => if p.registryName = c ∧ p.name = n then some p else acc) none

lemma lastRegistered_foldl (c n : String) (ps : List Plugin) (a : Option Plugin) :
    ps.foldl (fun acc p => if p.registryName = c ∧ p.name = n then some p else acc) a
      = (lastRegistered ps c n).elim a some := by
  induction ps generalizing a with
  | nil => simp [lastRegistered]
  | cons p ps ih =>
    simp only [List.foldl_cons, lastRegistered]
    by_cases hp : p.registryName = c ∧ p.name = n
    · simp only [if_pos hp]
      rw [ih (some p)]
      cases lastRegistered ps c n <;> rfl
    · simp only [if_neg hp]
      rw [ih a]
      rfl

lemma lookup_insertPlugin (reg : RegistryMap) (p : Plugin) (c n : String) :
    Lookup (insertPlugin reg p) c n =
      if c = p.registryName ∧ n = p.name then some p else Lookup reg c n := by
  by_cases hc : c = p.registryName
  · by_cases hn : n = p.name
    · simp [Lookup, insertPlugin, hc, hn]
    · have hcn : ¬(c = p.registryName ∧ n = p.name) := fun h => hn h.2
      rw [if_neg hcn]
      subst hc
      simp only [Lookup, insertPlugin, if_pos rfl, if_neg hn]
      cases hr : reg p.registryName <;> simp [hr, Option.getD, Lookup, hn]
  · have hcn : ¬(c = p.registryName ∧ n = p.name) := fun h => hc h.1
    rw [if_neg hcn]
    simp [Lookup, insertPlugin, hc]

lemma lookup_RegisterPlugin (ps : List Plugin) (reg reg' : RegistryMap) (c n : String)
    (hok : RegisterPlugin reg ps = .ok reg') :
    Lookup reg' c n = (lastRegistered ps c n).elim (Lookup reg c n) some := by
  induction ps generalizing reg with
  | nil =>
    simp only [RegisterPlugin] at hok
    cases hok
    simp [lastRegistered]
  | cons p ps ih =>
    simp only [RegisterPlugin] at hok
    by_cases hv : validRegistryNames p.registryName = true
    · rw [if_pos hv] at hok
      rw [ih _ hok, lookup_insertPlugin]
      have hfold : lastRegistered (p :: ps) c n
          = (lastRegistered ps c n).elim
              (if p.registryName = c ∧ p.name = n then some p else none) some := by
        simp only [lastRegistered, List.foldl_cons]
        exact lastRegistered_foldl c n ps _
      rw [hfold]
      by_cases hp : p.registryName = c ∧ p.name = n
      · have hp' : c = p.registryName ∧ n = p.name := ⟨hp.1.symm, hp.2.symm⟩
        rw [if_pos hp, if_pos hp']
        cases lastRegistered ps c n <;> rfl
      · have hp' : ¬(c = p.registryName ∧ n = p.name) := fun h => hp ⟨h.1.symm, h.2.symm⟩
        rw [if_neg hp, if_neg hp']
        cases lastRegistered ps c n <;> rfl
    · rw [if_neg hv] at hok
      simp at hok

lemma lookup_initRegistry (c n : String) : Lookup initRegistry c n = none := by
  unfold Lookup initRegistry
  by_cases h : validRegistryNames c = true <;> simp [h]

/-- C1: after a sequence of RegisterPlugin registrations of plugins
with valid categories, the dispatch lookup at (c, n) returns exactly
the most recently registered plugin under (c, n), and not-found when
none was registered there. -/
theorem register_lookup_last (ps : List Plugin) (reg' : RegistryMap) (c n : String)
    (_hv : ps.all (fun p => validRegistryNames p.registryName) = true)
    (hok : RegisterPlugin initRegistry ps = .ok reg') :
    Lookup reg' c n = lastRegistered ps c n := by
  rw [lookup_RegisterPlugin ps initRegistry reg' c n hok, lookup_initRegistry]
  cases lastRegistered ps c n <;> rfl

/-- A table plugin used in concrete witnesses. -/
def pA : Plugin :=
  ⟨"a", "table", [], ⟨0, "OK"⟩, fun _ => ⟨⟨0, "OK"⟩, []⟩⟩

/-- A logger plugin used in concrete witnesses. -/
def pB : Plugin :=
  ⟨"b", "logger", [], ⟨0, "OK"⟩, fun _ => ⟨⟨0, "OK"⟩, []⟩⟩

/-- A second table plugin under the same (category, name) as pA. -/
def pA2 : Plugin :=
  ⟨"a", "table", [], ⟨0, "OK"⟩, fun _ => ⟨⟨0, "OK"⟩, [[("k", "v")]]⟩⟩

theorem register_lookup_last_witness :
    ([pA, pB, pA2].all (fun p => validRegistryNames p.registryName) = true) ∧
    (RegisterPlugin initRegistry [pA, pB, pA2] =
      .ok (insertPlugin (insertPlugin (insertPlugin initRegistry pA) pB) pA2)) ∧
    Lookup (insertPlugin (insertPlugin (insertPlugin initRegistry pA) pB) pA2) "table" "a"
      = lastRegistered [pA, pB, pA2] "table" "a" :=
  ⟨rfl, rfl, register_lookup_last [pA, pB, pA2] _ "table" "a" rfl rfl⟩

/-- The server state that ExtensionManagerServer.Call reads and writes:
the registry and, when the prometheus port was enabled at Start, the
call counter and result-size gauge labelled by (plugin name, action).
The duration histogram observes real time and carries no modelled
state. -/
structure ServerState where
  registry : RegistryMap
  metricsEnabled : Bool
  counter : String → String → Nat
  gauge : String → String → Nat

/-- ExtensionManagerServer.Call of server.go.  Returns the new server
state, the *ExtensionResponse, the Go error (nil on every path of the
source), and the list of plugins invoked (dispatch invokes at most
one). -/
def Call (s : ServerState) (registry item : String) (request : Req) :
    ServerState × ExtensionResponse × Option String × List String :=
  match s.registry registry with
  | none =>
    (s, { status := { code := 1, message := "Unknown registry: " ++ registry },
          response := [] }, none, [])
  | some subreg =>
    match subreg item with
    | none =>
      (s, { status := { code := 1, message := "Unknown registry item: " ++ item },
            response := [] }, none, [])
    | some plugin =>
      let s1 := if s.metricsEnabled then
          { s with counter := fun i a =>
              if i = item ∧ a = reqGet request "action" then s.counter i a + 1
              else s.counter i a }
        else s
      let response := plugin.call request
      let s2 := if s1.metricsEnabled then
          { s1 with gauge := fun i a =>
              if i = item ∧ a = reqGet request "action" then response.response.length
              else s1.gauge i a }
        else s1
      (s2, response, none, [plugin.name])

/-- C2: dispatch to a category absent from the registry map returns
status code 1 with message "Unknown registry: " followed by the
category, a nil Go error, invokes no plugin, and leaves the server
state (registry and metrics) unchanged. -/
theorem call_unknown_registry (s : ServerState) (cat item : String) (req : Req)
    (h : s.registry cat = none) :
    Call s cat item req =
      (s, { status := { code := 1, message := "Unknown registry: " ++ cat },
            response := [] }, none, []) := by
  simp [Call, h]

/-- C3: dispatch to a known category but an item absent from its inner
map returns status code 1 with message "Unknown registry item: "
followed by the item, a nil Go error, invokes no plugin, and leaves
the server state unchanged. -/
theorem call_unknown_item (s : ServerState) (cat item : String) (req : Req)
    (subreg : String → Option Plugin)
    (h1 : s.registry cat = some subreg) (h2 : subreg item = none) :
    Call s cat item req =
      (s, { status := { code := 1, message := "Unknown registry item: " ++ item },
            response := [] }, none, []) := by
  simp [Call, h1, h2]

/-- C4: when a plugin is registered under (category, item), Call
returns exactly the response object produced by the plugin Call on
that request, unchanged, together with a nil Go error, and invokes
exactly that plugin. -/
theorem call_dispatch_roundtrip (s : ServerState) (cat item : String) (req : Req)
    (subreg : String → Option Plugin) (plugin : Plugin)
    (h1 : s.registry cat = some subreg) (h2 : subreg item = some plugin) :
    (Call s cat item req).2.1 = plugin.call req ∧
    (Call s cat item req).2.2.1 = none ∧
    (Call s cat item req).2.2.2 = [plugin.name] := by
  simp [Call, h1, h2]

/-- A plugin with a nontrivial response, used in concrete witnesses. -/
def pl0 : Plugin :=
  ⟨"t0", "table", [], ⟨0, "OK"⟩,
   fun r => ⟨⟨0, "OK"⟩, [[("echo", reqGet r "action")]]⟩⟩

/-- A concrete inner registry map holding pl0 under "t0". -/
def subreg0 : String → Option Plugin :=
  fun n => if n = "t0" then some pl0 else none

/-- A concrete server state whose registry holds pl0 under
("table", "t0") and nothing else, metrics disabled. -/
def s0 : ServerState :=
  { registry := fun c => if c = "table" then some subreg0 else none,
    metricsEnabled := false,
    counter := fun _ _ => 0,
    gauge := fun _ _ => 0 }

theorem call_unknown_registry_witness :
    (s0.registry "osquery" = none) ∧
    Call s0 "osquery" "t0" [] =
      (s0, { status := { code := 1, message := "Unknown registry: " ++ "osquery" },
             response := [] }, none, []) :=
  ⟨rfl, call_unknown_registry s0 "osquery" "t0" [] rfl⟩

theorem call_unknown_item_witness :
    (s0.registry "table" = some subreg0) ∧ (subreg0 "nope" = none) ∧
    Call s0 "table" "nope" [] =
      (s0, { status := { code := 1, message := "Unknown registry item: " ++ "nope" },
             response := [] }, none, []) :=
  ⟨rfl, rfl, call_unknown_item s0 "table" "nope" [] subreg0 rfl rfl⟩

theorem call_dispatch_roundtrip_witness :
    (s0.registry "table" = some subreg0) ∧ (subreg0 "t0" = some pl0) ∧
    ((Call s0 "table" "t0" [("action", "generate")]).2.1
        = pl0.call [("action", "generate")] ∧
     (Call s0 "table" "t0" [("action", "generate")]).2.2.1 = none ∧
     (Call s0 "table" "t0" [("action", "generate")]).2.2.2 = [pl0.name]) :=
  ⟨rfl, rfl,
   call_dispatch_roundtrip s0 "table" "t0" [("action", "generate")] subreg0 pl0 rfl rfl⟩

/-- A plugin whose RegistryName is outside the valid set. -/
def pBad : Plugin :=
  ⟨"bad", "osquery", [], ⟨0, "OK"⟩, fun _ => ⟨⟨0, "OK"⟩, []⟩⟩

/-- C5 counterexample: a RegisterPlugin call whose argument list holds
a valid plugin followed by an invalid one does panic, but the registry
at the moment of the panic already holds the valid plugin, so the call
did mutate the registry: before the call the lookup at ("table", "a")
is not-found, at the panic it finds pA. -/
theorem register_invalid_mutates_counterexample :
    (∃ reg m, RegisterPlugin initRegistry [pA, pBad] = .error (reg, m) ∧
      Lookup reg "table" "a" = some pA) ∧
    Lookup initRegistry "table" "a" = none :=
  ⟨⟨insertPlugin initRegistry pA, "invalid registry name: " ++ pBad.registryName,
    rfl, rfl⟩, rfl⟩

lemma RegisterPlugin_valid_front (qs : List Plugin) (rest : List Plugin) (reg : RegistryMap)
    (hq : qs.all (fun q => validRegistryNames q.registryName) = true) :
    RegisterPlugin reg (qs ++ rest) = RegisterPlugin (qs.foldl insertPlugin reg) rest := by
  induction qs generalizing reg with
  | nil => rfl
  | cons q qs ih =>
    simp only [List.all_cons, Bool.and_eq_true] at hq
    simp only [List.cons_append, RegisterPlugin, if_pos hq.1, List.foldl_cons]
    exact ih _ hq.2

/-- C5 amended: a RegisterPlugin call whose argument list holds an
invalid plugin panics at the first invalid plugin with message
"invalid registry name: " plus that category; the valid plugins before
it have already been inserted, and the invalid plugin and everything
after it are not inserted.  In particular the registry is unchanged
only when the invalid plugin comes first. -/
theorem register_invalid_panics_after_valid_inserts
    (qs : List Plugin) (p : Plugin) (rs : List Plugin)
    (hq : qs.all (fun q => validRegistryNames q.registryName) = true)
    (hp : validRegistryNames p.registryName = false) :
    RegisterPlugin initRegistry (qs ++ p :: rs) =
      .error (qs.foldl insertPlugin initRegistry,
              "invalid registry name: " ++ p.registryName) := by
  rw [RegisterPlugin_valid_front qs (p :: rs) initRegistry hq]
  simp [RegisterPlugin, hp]

theorem register_invalid_panics_witness :
    ([pA].all (fun q => validRegistryNames q.registryName) = true) ∧
    (validRegistryNames pBad.registryName = false) ∧
    RegisterPlugin initRegistry ([pA] ++ pBad :: []) =
      .error ([pA].foldl insertPlugin initRegistry,
              "invalid registry name: " ++ pBad.registryName) :=
  ⟨rfl, rfl, register_invalid_panics_after_valid_inserts [pA] pBad [] rfl rfl⟩

/-- ExtensionManagerServer.Shutdown of server.go, under the mutex.
The state it touches is the thrift server handle s.server (of
abstract type Srv).  Result: the new handle, the handles whose Stop
was launched asynchronously, and the returned Go error (nil on every
path of the source). -/
def Shutdown {Srv : Type} : Option Srv → Option Srv × List Srv × Option String
  | some srv => (none, [srv], none)
  | none => (none, [], none)

/-- C6: Shutdown is idempotent.  The first call clears the server
handle to nil and returns nil; any call starting from a nil handle is
a no-op: the handle stays nil, no Stop is launched, and nil is
returned. -/
theorem shutdown_idempotent {Srv : Type} (server : Option Srv) :
    Shutdown server = (none, server.toList, none) ∧
    Shutdown ((Shutdown server).1) = (none, [], none) := by
  cases server <;> simp [Shutdown, Option.toList]

/-- The outcome of one ping iteration of the watchdog loop in Run:
either the client Ping returned a Go error, or it returned a status. -/
inductive PingResult where
  | err (msg : String)
  | ok (status : ExtensionStatus)
deriving Repr, DecidableEq

/-- A ping outcome on which the watchdog signals failure: a Go error
or a status with nonzero code. -/
def pingFailed : PingResult → Bool
  | .err _ => true
  | .ok st => st.code != 0

/-- The watchdog goroutine of Run over a sequence of ping outcomes:
each iteration sleeps then pings; on a Go error it sends one wrapped
error on errc and breaks, on a nonzero status it sends one formatted
error and breaks, otherwise it loops.  The result collects every
message sent on the completion channel. -/
def watchdogLoop : List PingResult → List String
  | [] => []
  | .err m :: _ => ["extension ping failed: " ++ m]
  | .ok st :: rest =>
    if st.code != 0 then ["ping returned status " ++ toString st.code]
    else watchdogLoop rest

/-- C7: as soon as some ping in the sequence fails (Go error or
nonzero status), the watchdog sends exactly one failure on the
completion channel and breaks out of its loop; any number of
consecutive failing pings produce exactly one failure signal, not one
per failed ping. -/
theorem watchdog_signals_once (pings : List PingResult)
    (h : pings.any pingFailed = true) :
    (watchdogLoop pings).length = 1 := by
  induction pings with
  | nil => simp at h
  | cons p rest ih =>
    cases p with
    | err m => simp [watchdogLoop]
    | ok st =>
      cases hb : st.code != 0 with
      | true => simp [watchdogLoop, hb]
      | false =>
        simp only [List.any_cons, pingFailed, hb, Bool.false_or] at h
        simp only [watchdogLoop, hb, Bool.false_eq_true, if_false]
        exact ih h

theorem watchdog_signals_once_witness :
    ([PingResult.ok ⟨0, "OK"⟩, PingResult.ok ⟨2, "fail"⟩,
      PingResult.err "boom", PingResult.ok ⟨3, "fail"⟩].any pingFailed = true) ∧
    (watchdogLoop [PingResult.ok ⟨0, "OK"⟩, PingResult.ok ⟨2, "fail"⟩,
      PingResult.err "boom", PingResult.ok ⟨3, "fail"⟩]).length = 1 :=
  ⟨rfl, watchdog_signals_once _ rfl⟩

/-- The first value delivered on the single completion channel errc of
Run: either the serve loop exited (with the error Start returned,
possibly nil) or the watchdog signalled failure. -/
inductive Completion where
  | serveExit (err : Option String)
  | watchdogFail (msg : String)
deriving Repr, DecidableEq

/-- The error value a completion carries on the channel. -/
def completionError : Completion → Option String
  | .serveExit e => e
  | .watchdogFail m => some m

/-- What Run observes after the send: whether the prometheus endpoint
shutdown was invoked, whether Shutdown was invoked, the resulting
server handle and stopped handles, and the error Run returns. -/
structure RunOutcome (Srv : Type) where
  promShutdownCalled : Bool
  shutdownCalled : Bool
  server : Option Srv
  stopped : List Srv
  result : Option String
deriving Repr

/-- The tail of Run in server.go, after the first completion is
received from errc: shut the prometheus endpoint down when one was
started, ignoring its error (promShutErr is dropped), then always
call Shutdown, returning its error when non-nil and the received
error otherwise. -/
def runCompletion {Srv : Type} (promPresent : Bool) (promShutErr : Option String)
    (server : Option Srv) (c : Completion) : RunOutcome Srv :=
  let err := completionError c
  let sres := Shutdown server
  let _ := promShutErr
  { promShutdownCalled := promPresent,
    shutdownCalled := true,
    server := sres.1,
    stopped := sres.2.1,
    result := match sres.2.2 with
      | some m => some m
      | none => err }

/-- C8: whichever completion Run receives first, it handles both
sources identically: the metrics endpoint is shut down exactly when
one was started, its error is ignored, and Shutdown is always
attempted; the outcome is the same for a serve-loop exit and a
watchdog failure except that the received error is passed through as
the result. -/
theorem run_completion_always_shuts_down {Srv : Type} (promPresent : Bool)
    (e1 e2 : Option String) (server : Option Srv) (c : Completion) :
    runCompletion promPresent e1 server c =
      { promShutdownCalled := promPresent,
        shutdownCalled := true,
        server := none,
        stopped := server.toList,
        result := completionError c } ∧
    runCompletion promPresent e1 server c = runCompletion promPresent e2 server c := by
  cases server <;> cases c <;> simp [runCompletion, Shutdown, Option.toList]

/-- A Go interface value as the mutable-table callbacks receive it:
the numeric columns arrive as float64 (here carrying an integral
value, as in the example scenario), the text column as string. -/
inductive GoVal where
  | float (value : Int)
  | str (s : String)
deriving Repr, DecidableEq

/-- Sprintf "%v" of a row value: an integral float64 of the scenario
magnitudes prints in decimal, a string prints itself. -/
def sprintfV : GoVal → String
  | .float v => toString v
  | .str s => s

/-- Sprintf "%f" of a row value: six decimal places for an integral
float64; a non-float argument prints a verb error and does not
panic. -/
def sprintfF : GoVal → String
  | .float v => toString v ++ ".000000"
  | .str s => "%!f(string=" ++ s ++ ")"

/-- Sprintf "%s" of a row value. -/
def sprintfS : GoVal → String
  | .str s => s
  | .float v => "%!s(float64=" ++ toString v ++ ")"

/-- The initial backing store mutableData of the mutable-table
example. -/
def mutableData : List RowMap :=
  [[("i", "1234"), ("b", "12345678900"), ("d", "1.2345"), ("t", "hello")],
   [("i", "-1234"), ("b", "-12345678900"), ("d", "-1.2345"), ("t", "world")]]

/-- MutableInsert of the example: id is "%d" of int(row[0].(float64)),
the formatted row is appended to the backing store, and one result
row with the id and "success" is returned with a nil Go error.  The
error side models the Go runtime panics: a non-float row[0] fails the
type assertion, a row shorter than four values fails the index. -/
def MutableInsert (autoRowID : Bool) (row : List GoVal) (data : List RowMap) :
    Except String (List RowMap × List RowMap × Option String) :=
  let _ := autoRowID
  match row with
  | GoVal.float v :: b :: d :: t :: _ =>
    let id := toString v
    .ok (data ++ [[("i", id), ("b", sprintfV b), ("d", sprintfF d), ("t", sprintfS t)]],
         [[("id", id), ("status", "success")]], none)
  | GoVal.str _ :: _ => .error "interface conversion: interface is string, not float64"
  | _ => .error "index out of range"

/-- MutableUpdate of the example: the formatted row replaces
mutableData[rowID] in place.  The store is indexed positionally with
no bounds check, so an out-of-range rowID is a runtime index panic
(the error side); in range the Go error returned is nil. -/
def MutableUpdate (rowID : Int) (row : List GoVal) (data : List RowMap) :
    Except String (List RowMap × Option String) :=
  match row with
  | GoVal.float v :: b :: d :: t :: _ =>
    if 0 ≤ rowID ∧ rowID < (data.length : Int) then
      .ok (data.set rowID.toNat
            [("i", toString v), ("b", sprintfV b), ("d", sprintfF d), ("t", sprintfS t)],
           none)
    else .error "index out of range"
  | GoVal.str _ :: _ => .error "interface conversion: interface is string, not float64"
  | _ => .error "index out of range"

/-- MutableDelete of the example: append(mutableData[:rowID],
mutableData[rowID+1:]...) removes the row at rowID and shifts every
later row down by one.  The slice bounds are unchecked, so an
out-of-range rowID is a runtime slice-bounds panic (the error side);
in range the Go error returned is nil. -/
def MutableDelete (rowID : Int) (data : List RowMap) :
    Except String (List RowMap × Option String) :=
  if 0 ≤ rowID ∧ rowID < (data.length : Int) then
    .ok (data.take rowID.toNat ++ data.drop (rowID.toNat + 1), none)
  else .error "slice bounds out of range"

/-- C9: on the example backing store of two rows, Insert with row
values [5678, ...] appends a third row reachable at index 2,
Delete(0) removes the first row and shifts the former index-1 row to
index 0, and Update(0, newValues) replaces the row at index 0 in
place leaving the other row unchanged. -/
theorem mutable_table_scenario :
    (MutableInsert false [GoVal.float 5678, GoVal.float 2, GoVal.float 3, GoVal.str "abc"]
        mutableData =
      .ok (mutableData ++ [[("i", "5678"), ("b", "2"), ("d", "3.000000"), ("t", "abc")]],
           [[("id", "5678"), ("status", "success")]], none) ∧
     (mutableData ++ [[("i", "5678"), ("b", "2"), ("d", "3.000000"), ("t", "abc")]]).get? 2 =
       some [("i", "5678"), ("b", "2"), ("d", "3.000000"), ("t", "abc")]) ∧
    (MutableDelete 0 mutableData =
      .ok ([[("i", "-1234"), ("b", "-12345678900"), ("d", "-1.2345"), ("t", "world")]], none) ∧
     [[("i", "-1234"), ("b", "-12345678900"), ("d", "-1.2345"), ("t", "world")]].get? 0 =
       mutableData.get? 1) ∧
    MutableUpdate 0 [GoVal.float 77, GoVal.float 8, GoVal.float 9, GoVal.str "upd"]
        mutableData =
      .ok ([[("i", "77"), ("b", "8"), ("d", "9.000000"), ("t", "upd")],
            [("i", "-1234"), ("b", "-12345678900"), ("d", "-1.2345"), ("t", "world")]],
           none) := by
  refine ⟨⟨rfl, rfl⟩, ⟨?_, rfl⟩, ?_⟩ <;> rfl

/-- A row of values on which the example callbacks do not panic
before the positional indexing: at least four values with a float64
first value. -/
def wellFormedMutableRow : List GoVal → Bool
  | GoVal.float _ :: _ :: _ :: _ :: _ => true
  | _ => false

/-- C10: MutableUpdate and MutableDelete index the backing store
positionally with no bounds check: every rowID in [0, length) yields
a nil Go error, and every rowID outside that range panics on the
out-of-range index or slice instead of returning an error. -/
theorem mutable_positional_bounds (rowID : Int) (row : List GoVal) (data : List RowMap)
    (h : wellFormedMutableRow row = true) :
    (0 ≤ rowID ∧ rowID < (data.length : Int) →
      (∃ d, MutableUpdate rowID row data = .ok (d, none)) ∧
      (∃ d, MutableDelete rowID data = .ok (d, none))) ∧
    (rowID < 0 ∨ (data.length : Int) ≤ rowID →
      (∃ m, MutableUpdate rowID row data = .error m) ∧
      (∃ m, MutableDelete rowID data = .error m)) := by
  match row, h with
  | GoVal.float v :: b :: d :: t :: rest, _ =>
    constructor
    · intro hin
      exact ⟨⟨data.set rowID.toNat
                [("i", toString v), ("b", sprintfV b), ("d", sprintfF d), ("t", sprintfS t)],
              by simp [MutableUpdate, if_pos hin]⟩,
             ⟨data.take rowID.toNat ++ data.drop (rowID.toNat + 1),
              by simp [MutableDelete, if_pos hin]⟩⟩
    · intro hout
      have hnot : ¬(0 ≤ rowID ∧ rowID < (data.length : Int)) := by omega
      exact ⟨⟨"index out of range", by simp [MutableUpdate, if_neg hnot]⟩,
             ⟨"slice bounds out of range", by simp [MutableDelete, if_neg hnot]⟩⟩

theorem mutable_positional_bounds_witness :
    (wellFormedMutableRow [GoVal.float 77, GoVal.float 8, GoVal.float 9, GoVal.str "upd"]
       = true) ∧
    ((0 ≤ (3 : Int) ∧ (3 : Int) < (mutableData.length : Int) →
      (∃ d, MutableUpdate 3 [GoVal.float 77, GoVal.float 8, GoVal.float 9, GoVal.str "upd"]
              mutableData = .ok (d, none)) ∧
      (∃ d, MutableDelete 3 mutableData = .ok (d, none))) ∧
     ((3 : Int) < 0 ∨ (mutableData.length : Int) ≤ (3 : Int) →
      (∃ m, MutableUpdate 3 [GoVal.float 77, GoVal.float 8, GoVal.float 9, GoVal.str "upd"]
              mutableData = .error m) ∧
      (∃ m, MutableDelete 3 mutableData = .error m))) :=
  ⟨rfl, mutable_positional_bounds 3 _ mutableData rfl⟩

end Osquery
